import Mathlib

/-!
Verification development for the angle-website repository: a shallow
embedding, in Lean 4, of the data-access layer (src/lib/supabase.ts), the
category slug resolution and HTML meta-tag rewriting (api/render handlers),
the preview-image handlers (api/og-image), and the sitemap generator
(api/sitemap.ts), together with theorems about the behaviour of these
functions.

Strings are modelled as Lean `String`/`List Char`; the hosted datastore is
modelled as a list of episode rows together with the PostgREST filters the
code attaches to each query; transport failure of a query is modelled by an
explicit outcome value.  JavaScript's truthiness (empty string and zero are
falsy) and its `String.prototype.replace` semantics (including the special
dollar patterns in replacement strings) are modelled explicitly where the
code relies on them.
-/

/-! ## JavaScript string primitives -/

/-- Code-unit lexicographic comparison of character lists, the order JavaScript's
default `Array.prototype.sort` uses on strings (compared via code points here;
the two agree on all strings the site stores). -/
def lexLe : List Char → List Char → Bool
  | [], _ => true
  | _ :: _, [] => false
  | a :: as, b :: bs => if a.toNat = b.toNat then lexLe as bs else decide (a.toNat < b.toNat)

/-- The double-quote character (written via its code to keep literals simple). -/
def quoteChar : Char := Char.ofNat 34

/-- The single-quote (apostrophe) character. -/
def aposChar : Char := Char.ofNat 39

/-- The backtick character. -/
def backtickChar : Char := Char.ofNat 96

/-- Characters matched by the JavaScript regex class `\s` that can occur in
the ASCII range (plus NBSP); category labels and slugs only ever contain the
plain space among these. -/
def jsWhitespace (c : Char) : Bool :=
  c = ' ' || c = Char.ofNat 9 || c = Char.ofNat 10 || c = Char.ofNat 13 ||
  c = Char.ofNat 11 || c = Char.ofNat 12 || c = Char.ofNat 160

/-- JavaScript `str.toLowerCase()` (ASCII range, which covers every label the
claims mention). -/
def jsToLower (s : String) : String := ⟨s.data.map Char.toLower⟩

/-- Replace each maximal run of whitespace by a single hyphen: the effect of
`.replace(/\s+/g, '-')`. The Boolean argument records whether the previous
character was part of a whitespace run. -/
def wsToHyphenGo : Bool → List Char → List Char
  | _, [] => []
  | prevWs, c :: cs =>
    if jsWhitespace c then
      (if prevWs then wsToHyphenGo true cs else '-' :: wsToHyphenGo true cs)
    else c :: wsToHyphenGo false cs

/-- JavaScript `.replace(/\s+/g, '-')`. -/
def wsToHyphen (l : List Char) : List Char := wsToHyphenGo false l

/-- JavaScript `.replace(/[&]/g, 'and')`. -/
def ampToAnd (l : List Char) : List Char :=
  l.flatMap (fun c => if c = '&' then ['a', 'n', 'd'] else [c])

/-- Membership in the character class `[a-z0-9-]` (bounds stated on code
points: 97 to 122 is the lowercase range, 48 to 57 the digits). -/
def isSlugChar (c : Char) : Bool :=
  (decide (97 ≤ c.toNat) && decide (c.toNat ≤ 122)) ||
  (decide (48 ≤ c.toNat) && decide (c.toNat ≤ 57)) || c = '-'

/-- Membership in the character class `[a-z0-9]`. -/
def isLowerAlnum (c : Char) : Bool :=
  (decide (97 ≤ c.toNat) && decide (c.toNat ≤ 122)) ||
  (decide (48 ≤ c.toNat) && decide (c.toNat ≤ 57))

/-- JavaScript `.replace(/[^a-z0-9-]/g, '')`. -/
def keepSlugChars (l : List Char) : List Char := l.filter isSlugChar

/-- Replace every occurrence of the character `c` by the list `repl`: the
effect of a global single-character regex replacement such as
`.replace(/&/g, '&amp;')`. -/
def replaceAllChar (c : Char) (repl : List Char) (l : List Char) : List Char :=
  l.flatMap (fun x => if x = c then repl else [x])

/-- The `escapeHtml` helper of api/render/episode/id.ts: five sequential
global replacements, ampersand first. -/
def escapeHtml (l : List Char) : List Char :=
  replaceAllChar aposChar "&#039;".data
    (replaceAllChar quoteChar "&quot;".data
      (replaceAllChar '>' "&gt;".data
        (replaceAllChar '<' "&lt;".data
          (replaceAllChar '&' "&amp;".data l))))

/-- String-valued wrapper of `escapeHtml`. -/
def escapeHtmlS (s : String) : String := ⟨escapeHtml s.data⟩

/-- JavaScript truthiness of a nullable string (`undefined`, `null` and the
empty string are falsy). -/
def jsTruthyStr : Option String → Bool
  | none => false
  | some s => !(s == "")

/-- JavaScript truthiness of a nullable number (zero is falsy). -/
def jsTruthyNum : Option Int → Bool
  | none => false
  | some n => !(n == 0)

/-- JavaScript `a || b || null` on nullable strings. -/
def jsOrStr (a b : Option String) : Option String :=
  if jsTruthyStr a then a else if jsTruthyStr b then b else none

/-- JavaScript `a || b || null` on nullable numbers. -/
def jsOrNum (a b : Option Int) : Option Int :=
  if jsTruthyNum a then a else if jsTruthyNum b then b else none

/-- JavaScript `a || b` where `a` is a nullable string and `b` a string
default (used for description fallbacks). -/
def jsStrOrDefault (a : Option String) (b : String) : String :=
  match a with
  | none => b
  | some s => if s = "" then b else s

/-! ## Data model and data-access layer (src/lib/supabase.ts) -/

/-- A raw row of the `episodes` table, with every column the mapping code in
src/lib/supabase.ts reads (columns the schema may lack are nullable there,
so they are `Option` here). -/
structure EpisodeRow where
  id : String
  title : String
  excerpt : Option String
  cover_url : Option String
  created_at : String
  category : Option String
  status : String
  duration : Option Int
  length : Option Int
  audio_url : Option String
  audio : Option String
  transcript : Option String
  host : Option String
  author : Option String
  episode_number : Option Int
  number : Option Int
  tags : Option (List String)
  description : Option String
  full_description : Option String
deriving DecidableEq, Repr

/-- The `Episode` response shape of src/lib/supabase.ts. -/
structure Episode where
  id : String
  title : String
  description : Option String
  coverImage : Option String
  createdAt : String
  category : Option String
  duration : Option Int
  audioUrl : Option String
  transcript : Option String
  host : Option String
  episodeNumber : Option Int
  tags : Option (List String)
  fullDescription : Option String
deriving DecidableEq, Repr

/-- The row-to-episode mapping applied by both fetch functions in
src/lib/supabase.ts, including the JavaScript `||` fallbacks. -/
def mapRow (r : EpisodeRow) : Episode :=
  { id := r.id
    title := r.title
    description := r.excerpt
    coverImage := r.cover_url
    createdAt := r.created_at
    category := r.category
    duration := jsOrNum r.duration r.length
    audioUrl := jsOrStr r.audio_url r.audio
    transcript := jsOrStr r.transcript none
    host := jsOrStr r.host r.author
    episodeNumber := jsOrNum r.episode_number r.number
    tags := r.tags
    fullDescription := jsOrStr r.description r.full_description }

/-- Whether a supabase query reaches the datastore and runs successfully;
`failed` models a transport or query failure (the query builder's `error`
result). -/
inductive DbOutcome
  | ok
  | failed
deriving DecidableEq, Repr

/-- The error a data-access function throws when the upstream read fails. -/
inductive DbError
  | upstream
deriving DecidableEq, Repr

/-- Descending sort by `created_at`: the `.order('created_at', ascending
false)` clause of the episodes query (stable, as the datastore's sort is
modelled stable). -/
def sortByCreatedDesc (rows : List EpisodeRow) : List EpisodeRow :=
  List.insertionSort (fun a b => lexLe b.created_at.data a.created_at.data = true) rows

/-- `fetchEpisodes` of src/lib/supabase.ts: select completed episodes,
newest first, map rows; throw the supabase error object if the read failed. -/
def fetchEpisodes (db : List EpisodeRow) : DbOutcome → Except DbError (List Episode)
  | .failed => .error .upstream
  | .ok =>
    .ok ((sortByCreatedDesc (db.filter (fun r => r.status == "completed"))).map mapRow)

/-- `fetchEpisodeById` of src/lib/supabase.ts: select the single row with the
given id and completed status. `.single()` yields an error when zero or more
than one row matches, and the function returns `null` on any error result,
including transport failure, so it never throws. -/
def fetchEpisodeById (db : List EpisodeRow) (id : String) :
    DbOutcome → Except DbError (Option Episode)
  | .failed => .ok none
  | .ok =>
    match db.filter (fun r => r.id == id && r.status == "completed") with
    | [r] => .ok (some (mapRow r))
    | _ => .ok none

/-- Deduplication keeping first occurrences: the effect of the JavaScript
`new Set(...)` spread (each element is kept at its first position and its
later duplicates are dropped). -/
def jsSetDedup {α : Type} [DecidableEq α] : List α → List α
  | [] => []
  | x :: xs => x :: (jsSetDedup xs).filter (fun y => !(y == x))

/-- Ascending string sort, the default JavaScript `.sort()` on strings. -/
def sortStrings (l : List String) : List String :=
  List.insertionSort (fun a b => lexLe a.data b.data = true) l

/-- `fetchCategories` of src/lib/supabase.ts: select the `category` column of
completed rows with non-null category, deduplicate, drop nulls, sort;
throw if the read failed. -/
def fetchCategories (db : List EpisodeRow) : DbOutcome → Except DbError (List String)
  | .failed => .error .upstream
  | .ok =>
    .ok (sortStrings
      ((jsSetDedup
        ((db.filter (fun r => r.status == "completed" && !(r.category == none))).map
          (fun r => r.category))).filterMap (fun c => c)))

/-! ## Slug resolution (api/render/category handler) -/

/-- The two virtual filter keywords. -/
def SPECIAL_FILTERS : List String := ["new", "popular"]

/-- Path segments never treated as categories. -/
def EXCLUDED_PATHS : List String :=
  ["api", "episode", "images", "fonts", "robots.txt", "favicon.ico", "sitemap.xml"]

/-- The `categoryToSlug` helper: lowercase, collapse whitespace runs to a
hyphen, spell `&` as `and`, strip everything outside `[a-z0-9-]`. -/
def categoryToSlug (cat : String) : String :=
  ⟨keepSlugChars (ampToAnd (wsToHyphen (cat.data.map Char.toLower)))⟩

/-- The loose normal form used by the third matching rule of
`slugToCategory`: lowercase, drop whitespace, drop `&`, keep `[a-z0-9]`. -/
def looseNormalize (cat : String) : String :=
  ⟨((cat.data.map Char.toLower).filter (fun c => !jsWhitespace c)
      |>.filter (fun c => !(c = '&'))).filter isLowerAlnum⟩

/-- JavaScript global replacement of every hyphen by the empty string. -/
def stripHyphens (s : String) : String := ⟨s.data.filter (fun c => !(c = '-'))⟩

/-- The `slugToCategory` helper: first exact case-insensitive match, then
slug match, then the loose hyphen-insensitive match; first match in list
order wins at each rule. -/
def slugToCategory (categories : List String) (slug : String) : Option String :=
  match categories.find? (fun c => jsToLower c == jsToLower slug) with
  | some c => some c
  | none =>
    match categories.find? (fun c => categoryToSlug c == jsToLower slug) with
    | some c => some c
    | none =>
      categories.find?
        (fun c => looseNormalize c == stripHyphens (jsToLower slug))

/-! ## Regex tag patterns and the replace primitive

Every regex the two HTML renderers use has the shape
`LITERAL-HEAD [^x]* LITERAL-TAIL` (with the tail beginning with the excluded
character `x`), or is fully literal.  `TagPattern` captures this shape:
`pre` is the head, `post` the tail and `stop` the excluded character; a fully
literal regex has an empty `post`.  Because the middle class excludes the
first character of the tail, the regex matches at a position exactly when
`pre` occurs there, followed by a (possibly empty) `stop`-free run ending at
the first `stop`, followed by `post`; `String.prototype.replace` rewrites the
leftmost such match. -/

structure TagPattern where
  pre : List Char
  stop : Char
  post : List Char
deriving DecidableEq, Repr

/-- Strip a literal head from a character list. -/
def stripPre : List Char → List Char → Option (List Char)
  | [], s => some s
  | _ :: _, [] => none
  | a :: as, b :: bs => if a = b then stripPre as bs else none

/-- Split a list at the first occurrence of `c`, returning the `c`-free
part before it and the remainder beginning with `c`; `none` when `c` does
not occur. -/
def splitAtFirst (c : Char) : List Char → Option (List Char × List Char)
  | [] => none
  | x :: xs =>
    if x = c then some ([], x :: xs)
    else
      match splitAtFirst c xs with
      | none => none
      | some (a, b) => some (x :: a, b)

/-- Try to match a tag pattern at the head of `s`; on success return the
middle run and the remainder of `s` after the whole match. -/
def TagPattern.matchAt (p : TagPattern) (s : List Char) : Option (List Char × List Char) :=
  match stripPre p.pre s with
  | none => none
  | some r1 =>
    if p.post.isEmpty then some ([], r1)
    else
      match splitAtFirst p.stop r1 with
      | none => none
      | some (mid, r2) =>
        match stripPre p.post r2 with
        | none => none
        | some rest => some (mid, rest)

/-- ECMAScript GetSubstitution for a replacement string without capture
groups: `$$` yields a dollar, `$&` the matched text, a dollar-backtick the
text before the match, a dollar-quote the text after it; any other dollar
sequence is literal. -/
def substitutionValue (matched before after : List Char) : List Char → List Char
  | [] => []
  | [x] => [x]
  | x :: y :: rest =>
    if x = '$' then
      if y = '$' then '$' :: substitutionValue matched before after rest
      else if y = '&' then matched ++ substitutionValue matched before after rest
      else if y = backtickChar then before ++ substitutionValue matched before after rest
      else if y = aposChar then after ++ substitutionValue matched before after rest
      else x :: y :: substitutionValue matched before after rest
    else x :: substitutionValue matched before after (y :: rest)

/-- Scan for the leftmost match of `p`, keeping the reversed prefix already
scanned in `bfr`; rewrite the match using the replacement string `repl`. -/
def replaceFirstGo (p : TagPattern) (repl : List Char) : List Char → List Char → List Char
  | _, [] => []
  | bfr, x :: xs =>
    match p.matchAt (x :: xs) with
    | some (mid, rest) =>
      substitutionValue (p.pre ++ mid ++ p.post) bfr.reverse rest repl ++ rest
    | none => x :: replaceFirstGo p repl (x :: bfr) xs

/-- JavaScript `s.replace(regex, repl)` for a (non-global) tag-pattern regex. -/
def replaceFirst (p : TagPattern) (repl : List Char) (s : List Char) : List Char :=
  replaceFirstGo p repl [] s

/-- The strings the pattern `p` matches: its literal head, then a run free of
the stop character, then its literal tail (empty middle for a literal
pattern). -/
def IsTagMatch (p : TagPattern) (m : List Char) : Prop :=
  ∃ mid, m = p.pre ++ mid ++ p.post ∧ p.stop ∉ mid ∧ (p.post = [] → mid = [])

/-- Documents reachable from `s` by rewriting, any number of times, a
substring that matches one of the recognized tag patterns; all bytes outside
the rewritten spans are untouched. -/
inductive OnlyTagEdits (ps : List TagPattern) : List Char → List Char → Prop
  | refl (s : List Char) : OnlyTagEdits ps s s
  | step {s : List Char} (a m b r : List Char) {p : TagPattern} :
      OnlyTagEdits ps s (a ++ m ++ b) → p ∈ ps → IsTagMatch p m →
      OnlyTagEdits ps s (a ++ r ++ b)

/-! ## The concrete tag patterns of the two HTML renderers -/

/-- Pattern for a meta tag addressed by `property` with a wildcard content
attribute. -/
def metaPropPattern (prop : String) : TagPattern :=
  ⟨("<meta property=\"" ++ prop ++ "\" content=\"").data, quoteChar, [quoteChar, '>']⟩

/-- Pattern for a meta tag addressed by `name` with a wildcard content
attribute. -/
def metaNamePattern (nm : String) : TagPattern :=
  ⟨("<meta name=\"" ++ nm ++ "\" content=\"").data, quoteChar, [quoteChar, '>']⟩

/-- Pattern for the document title element. -/
def titlePattern : TagPattern := ⟨"<title>".data, '<', "</title>".data⟩

/-- Fully literal pattern (a regex without character classes). -/
def literalPattern (s : String) : TagPattern := ⟨s.data, quoteChar, []⟩

/-- Replacement text for a meta tag addressed by `property`. -/
def metaPropTag (prop content : String) : String :=
  "<meta property=\"" ++ prop ++ "\" content=\"" ++ content ++ "\">"

/-- Replacement text for a meta tag addressed by `name`. -/
def metaNameTag (nm content : String) : String :=
  "<meta name=\"" ++ nm ++ "\" content=\"" ++ content ++ "\">"

/-- The tags the episode-page renderer recognizes and rewrites. -/
def episodeRenderPatterns : List TagPattern :=
  [metaPropPattern "og:type", metaPropPattern "og:url", metaPropPattern "og:title",
   metaPropPattern "og:description", metaPropPattern "og:image",
   metaPropPattern "og:image:width", metaPropPattern "og:image:height",
   metaNamePattern "twitter:card", metaNamePattern "twitter:url",
   metaNamePattern "twitter:title", metaNamePattern "twitter:description",
   metaNamePattern "twitter:image", titlePattern]

/-- The tags the category-page renderer recognizes and rewrites (its
`og:type` and `twitter:card` regexes are fully literal). -/
def categoryRenderPatterns : List TagPattern :=
  [literalPattern "<meta property=\"og:type\" content=\"website\">",
   metaPropPattern "og:url", metaPropPattern "og:title",
   metaPropPattern "og:description", metaPropPattern "og:image",
   literalPattern "<meta name=\"twitter:card\" content=\"summary_large_image\">",
   metaNamePattern "twitter:url", metaNamePattern "twitter:title",
   metaNamePattern "twitter:description", metaNamePattern "twitter:image",
   titlePattern]

/-! ## HTML renderers -/

/-- The meta-tag substitution pipeline of api/render/episode/id.ts, applied
to a loaded shell document for a fetched episode: thirteen sequential
replacements of the first match of each recognized tag. -/
def renderEpisodeHtml (shell : List Char) (ep : Episode)
    (episodeId host protocol : String) : List Char :=
  let baseUrl := protocol ++ "://" ++ host
  let episodeUrl := baseUrl ++ "/episode/" ++ episodeId
  let ogImageUrl := baseUrl ++ "/api/og-image/" ++ episodeId
  let title := ep.title ++ " | Angle"
  let description :=
    jsStrOrDefault ep.fullDescription
      (jsStrOrDefault ep.description "Stories worth listening.")
  let escapedTitle := escapeHtmlS ep.title
  let escapedDescription := escapeHtmlS description
  let escapedFullTitle := escapeHtmlS title
  let h1 := replaceFirst (metaPropPattern "og:type")
    (metaPropTag "og:type" "article").data shell
  let h2 := replaceFirst (metaPropPattern "og:url")
    (metaPropTag "og:url" episodeUrl).data h1
  let h3 := replaceFirst (metaPropPattern "og:title")
    (metaPropTag "og:title" escapedTitle).data h2
  let h4 := replaceFirst (metaPropPattern "og:description")
    (metaPropTag "og:description" escapedDescription).data h3
  let h5 := replaceFirst (metaPropPattern "og:image")
    (metaPropTag "og:image" ogImageUrl).data h4
  let h6 := replaceFirst (metaPropPattern "og:image:width")
    (metaPropTag "og:image:width" "1200").data h5
  let h7 := replaceFirst (metaPropPattern "og:image:height")
    (metaPropTag "og:image:height" "630").data h6
  let h8 := replaceFirst (metaNamePattern "twitter:card")
    (metaNameTag "twitter:card" "summary_large_image").data h7
  let h9 := replaceFirst (metaNamePattern "twitter:url")
    (metaNameTag "twitter:url" episodeUrl).data h8
  let h10 := replaceFirst (metaNamePattern "twitter:title")
    (metaNameTag "twitter:title" escapedTitle).data h9
  let h11 := replaceFirst (metaNamePattern "twitter:description")
    (metaNameTag "twitter:description" escapedDescription).data h10
  let h12 := replaceFirst (metaNamePattern "twitter:image")
    (metaNameTag "twitter:image" ogImageUrl).data h11
  replaceFirst titlePattern ("<title>" ++ escapedFullTitle ++ "</title>").data h12

/-- The content values the episode renderer substitutes into the document,
in substitution order (URL and fixed values verbatim, episode text escaped). -/
def episodeSubstitutions (ep : Episode) (episodeId host protocol : String) : List String :=
  let baseUrl := protocol ++ "://" ++ host
  let episodeUrl := baseUrl ++ "/episode/" ++ episodeId
  let ogImageUrl := baseUrl ++ "/api/og-image/" ++ episodeId
  let description :=
    jsStrOrDefault ep.fullDescription
      (jsStrOrDefault ep.description "Stories worth listening.")
  ["article", episodeUrl, escapeHtmlS ep.title, escapeHtmlS description, ogImageUrl,
   "1200", "630", "summary_large_image", episodeUrl, escapeHtmlS ep.title,
   escapeHtmlS description, ogImageUrl, escapeHtmlS (ep.title ++ " | Angle")]

/-- The episode-derived text values among the episode renderer's
substitutions: the escaped title, escaped description and escaped document
title. -/
def episodeTextSubstitutions (ep : Episode) : List String :=
  [escapeHtmlS ep.title,
   escapeHtmlS (jsStrOrDefault ep.fullDescription
     (jsStrOrDefault ep.description "Stories worth listening.")),
   escapeHtmlS (ep.title ++ " | Angle")]

/-- The meta-tag substitution pipeline of the category-page renderer
(api/render/category.ts, evolved variant), applied to a loaded shell for a
request whose extracted category segment is `category`, against the fetched
category list: eleven sequential replacements. -/
def renderCategoryHtml (shell : List Char) (category : String)
    (categories : List String) (host protocol : String) : List Char :=
  let categorySlug := jsToLower category
  let matchingCategory := slugToCategory categories categorySlug
  let displayCategory := jsStrOrDefault matchingCategory category
  let categoryLabel :=
    if displayCategory == "new" then "New"
    else if displayCategory == "popular" then "Popular"
    else displayCategory
  let baseUrl := protocol ++ "://" ++ host
  let categoryUrl := baseUrl ++ "/" ++ categorySlug
  let ogImageUrl := baseUrl ++ "/api/og-image/category/" ++ categorySlug
  let title := categoryLabel ++ " Stories | Angle"
  let description :=
    if category == "new" then "Latest stories worth listening."
    else if category == "popular" then "Popular stories worth listening."
    else categoryLabel ++ " stories worth listening."
  let h1 := replaceFirst (literalPattern "<meta property=\"og:type\" content=\"website\">")
    "<meta property=\"og:type\" content=\"website\">".data shell
  let h2 := replaceFirst (metaPropPattern "og:url")
    (metaPropTag "og:url" categoryUrl).data h1
  let h3 := replaceFirst (metaPropPattern "og:title")
    (metaPropTag "og:title" title).data h2
  let h4 := replaceFirst (metaPropPattern "og:description")
    (metaPropTag "og:description" description).data h3
  let h5 := replaceFirst (metaPropPattern "og:image")
    (metaPropTag "og:image" ogImageUrl).data h4
  let h6 := replaceFirst (literalPattern "<meta name=\"twitter:card\" content=\"summary_large_image\">")
    "<meta name=\"twitter:card\" content=\"summary_large_image\">".data h5
  let h7 := replaceFirst (metaNamePattern "twitter:url")
    (metaNameTag "twitter:url" categoryUrl).data h6
  let h8 := replaceFirst (metaNamePattern "twitter:title")
    (metaNameTag "twitter:title" title).data h7
  let h9 := replaceFirst (metaNamePattern "twitter:description")
    (metaNameTag "twitter:description" description).data h8
  let h10 := replaceFirst (metaNamePattern "twitter:image")
    (metaNameTag "twitter:image" ogImageUrl).data h9
  replaceFirst titlePattern ("<title>" ++ title ++ "</title>").data h10

/-! ## Preview-image endpoint (api/og-image/id.ts) -/

/-- What a generated preview image depicts. -/
inductive OgImageKind
  | episodeArt (ep : Episode)
  | defaultArt
deriving DecidableEq, Repr

/-- Body of a preview-image response. -/
inductive OgBody
  | empty
  | png (kind : OgImageKind) (width height : Nat)
deriving DecidableEq, Repr

/-- Response of a preview-image handler, together with a flag recording
whether the handler issued a datastore read. -/
structure OgResult where
  status : Nat
  body : OgBody
  dbRead : Bool
deriving DecidableEq, Repr

/-- The `serveDefaultImage` fallback of api/og-image/id.ts: the branded
1200 by 630 default image, or 500 with no body when even that image fails
to rasterize (`defaultOk` models whether the rasterizer succeeds). -/
def serveDefaultImage (dbRead : Bool) (defaultOk : Bool) : OgResult :=
  if defaultOk then ⟨200, OgBody.png OgImageKind.defaultArt 1200 630, dbRead⟩
  else ⟨500, OgBody.empty, dbRead⟩

/-- The episode preview-image handler of api/og-image/id.ts.  `mainOk` and
`defaultOk` model whether rasterizing the episode image and the default
image succeed; a missing or empty id, a failed or empty fetch, and a failed
episode rasterization all fall back to the default image. -/
def ogImageIdHandler (method : String) (queryId : Option String)
    (db : List EpisodeRow) (o : DbOutcome) (mainOk defaultOk : Bool) : OgResult :=
  if method == "OPTIONS" then ⟨200, OgBody.empty, false⟩
  else if !(method == "GET") then ⟨405, OgBody.empty, false⟩
  else
    match queryId with
    | none => serveDefaultImage false defaultOk
    | some id =>
      if id == "" then serveDefaultImage false defaultOk
      else
        match fetchEpisodeById db id o with
        | .error _ => serveDefaultImage true defaultOk
        | .ok none => serveDefaultImage true defaultOk
        | .ok (some ep) =>
          if mainOk then ⟨200, OgBody.png (OgImageKind.episodeArt ep) 1200 630, true⟩
          else serveDefaultImage true defaultOk

/-! ## JSON API handlers -/

/-- Body of a JSON API response. -/
inductive ApiBody
  | empty
  | categoriesData (cats : List String)
  | episodesData (eps : List Episode)
  | episodeData (ep : Episode)
  | apiError (msg : String)
deriving DecidableEq, Repr

/-- Response of a JSON API handler, together with a flag recording whether
the handler issued a datastore read. -/
structure ApiResult where
  status : Nat
  body : ApiBody
  dbRead : Bool
deriving DecidableEq, Repr

/-- The handler of api/categories.ts. -/
def categoriesHandler (method : String) (db : List EpisodeRow) (o : DbOutcome) : ApiResult :=
  if method == "OPTIONS" then ⟨200, ApiBody.empty, false⟩
  else if !(method == "GET") then ⟨405, ApiBody.apiError "Method not allowed", false⟩
  else
    match fetchCategories db o with
    | .ok cats => ⟨200, ApiBody.categoriesData cats, true⟩
    | .error _ => ⟨500, ApiBody.apiError "Failed to fetch categories", true⟩

/-- The episode-list handler (api/episodes.ts). -/
def episodesListHandler (method : String) (db : List EpisodeRow) (o : DbOutcome) : ApiResult :=
  if method == "OPTIONS" then ⟨200, ApiBody.empty, false⟩
  else if !(method == "GET") then ⟨405, ApiBody.apiError "Method not allowed", false⟩
  else
    match fetchEpisodes db o with
    | .ok eps => ⟨200, ApiBody.episodesData eps, true⟩
    | .error _ => ⟨500, ApiBody.apiError "Failed to fetch episodes", true⟩

/-- The single-episode JSON handler (api/episodes/id.ts): 400 for a missing
or empty id, 404 when no completed episode matches, 200 with the episode
otherwise. -/
def episodeByIdApiHandler (method : String) (queryId : Option String)
    (db : List EpisodeRow) (o : DbOutcome) : ApiResult :=
  if method == "OPTIONS" then ⟨200, ApiBody.empty, false⟩
  else if !(method == "GET") then ⟨405, ApiBody.apiError "Method not allowed", false⟩
  else
    match queryId with
    | none => ⟨400, ApiBody.apiError "Episode ID is required", false⟩
    | some id =>
      if id == "" then ⟨400, ApiBody.apiError "Episode ID is required", false⟩
      else
        match fetchEpisodeById db id o with
        | .ok none => ⟨404, ApiBody.apiError "Episode not found", true⟩
        | .ok (some ep) => ⟨200, ApiBody.episodeData ep, true⟩
        | .error _ => ⟨500, ApiBody.apiError "Failed to fetch episode", true⟩

/-- The default preview-image handler of api/og-image.ts (no data
dependency; `imgOk` models whether the rasterizer succeeds). -/
def ogImageDefaultHandler (method : String) (imgOk : Bool) : OgResult :=
  if method == "OPTIONS" then ⟨200, OgBody.empty, false⟩
  else if !(method == "GET") then ⟨405, OgBody.empty, false⟩
  else if imgOk then ⟨200, OgBody.png OgImageKind.defaultArt 1200 630, false⟩
  else ⟨500, OgBody.empty, false⟩

/-! ## Sitemap generator (api/sitemap.ts) -/

/-- The site base URL constant. -/
def BASE_URL : String := "https://newsangle.co"

/-- The `formatDate` helper: the calendar-day part of an ISO timestamp,
which is what `new Date(s).toISOString().split('T')` yields for the UTC
ISO-8601 strings the datastore stores in `created_at`. -/
def formatDate (s : String) : String := ⟨s.data.takeWhile (fun c => !(c = 'T'))⟩

/-- The home-page url entry pushed by `generateSitemapXML`. -/
def homeUrlEntry (now : String) : String :=
  "  <url>\n    <loc>" ++ BASE_URL ++ "/</loc>\n    <lastmod>" ++ formatDate now ++
  "</lastmod>\n    <changefreq>weekly</changefreq>\n    <priority>1.0</priority>\n  </url>"

/-- The url entry `generateSitemapXML` pushes for one category. -/
def categoryUrlEntry (now category : String) : String :=
  "  <url>\n    <loc>" ++ BASE_URL ++ "/" ++ category ++ "</loc>\n    <lastmod>" ++
  formatDate now ++
  "</lastmod>\n    <changefreq>daily</changefreq>\n    <priority>0.9</priority>\n  </url>"

/-- The url entry `generateSitemapXML` pushes for one episode. -/
def episodeUrlEntry (ep : Episode) : String :=
  "  <url>\n    <loc>" ++ BASE_URL ++ "/episode/" ++ ep.id ++ "</loc>\n    <lastmod>" ++
  formatDate ep.createdAt ++
  "</lastmod>\n    <changefreq>monthly</changefreq>\n    <priority>0.8</priority>\n  </url>"

/-- The `urls` array `generateSitemapXML` accumulates: the home entry, one
entry per virtual filter and fetched category, one entry per episode. -/
def sitemapUrls (episodes : List Episode) (categories : List String) (now : String) :
    List String :=
  homeUrlEntry now ::
    ((SPECIAL_FILTERS ++ categories).map (categoryUrlEntry now) ++
      episodes.map episodeUrlEntry)

/-- JavaScript `array.join(sep)`. -/
def joinSep (sep : String) : List String → String
  | [] => ""
  | [x] => x
  | x :: y :: rest => x ++ sep ++ joinSep sep (y :: rest)

/-- `generateSitemapXML` of api/sitemap.ts. -/
def generateSitemapXML (episodes : List Episode) (categories : List String)
    (now : String) : String :=
  "<?xml version=\"1.0\" encoding=\"UTF-8\"?>\n<urlset xmlns=\"http://www.sitemaps.org/schemas/sitemap/0.9\">\n" ++
  joinSep "\n" (sitemapUrls episodes categories now) ++ "\n</urlset>"

/-- The minimal home-page-only document the sitemap handler emits when the
episode fetch fails. -/
def fallbackSitemap (now : String) : String :=
  "<?xml version=\"1.0\" encoding=\"UTF-8\"?>\n<urlset xmlns=\"http://www.sitemaps.org/schemas/sitemap/0.9\">\n  <url>\n    <loc>" ++
  BASE_URL ++ "/</loc>\n    <lastmod>" ++ formatDate now ++
  "</lastmod>\n    <changefreq>weekly</changefreq>\n    <priority>1.0</priority>\n  </url>\n</urlset>"

/-- The sitemap handler: the categories fetch degrades to an empty list on
failure, the episodes fetch degrades to the fallback document; `now` is the
current instant as an ISO string. -/
def sitemapHandler (method : String) (db : List EpisodeRow)
    (epOutcome catOutcome : DbOutcome) (now : String) : Nat × String :=
  if method == "OPTIONS" then (200, "")
  else if !(method == "GET") then
    (405, "<?xml version=\"1.0\" encoding=\"UTF-8\"?><error>Method not allowed</error>")
  else
    match fetchEpisodes db epOutcome with
    | .error _ => (200, fallbackSitemap now)
    | .ok eps =>
      let cats := match fetchCategories db catOutcome with
        | .ok cs => cs
        | .error _ => []
      (200, generateSitemapXML eps cats now)

/-! ## Helper lemmas -/

theorem mem_jsSetDedup {α : Type} [DecidableEq α] (a : α) (l : List α) :
    a ∈ jsSetDedup l ↔ a ∈ l := by
  induction l with
  | nil => simp [jsSetDedup]
  | cons x xs ih =>
    simp only [jsSetDedup, List.mem_cons, List.mem_filter, ih]
    constructor
    · rintro (rfl | ⟨h, _⟩)
      · exact Or.inl rfl
      · exact Or.inr h
    · rintro (rfl | h)
      · exact Or.inl rfl
      · by_cases hax : a = x
        · exact Or.inl hax
        · exact Or.inr ⟨h, by simp [hax]⟩

theorem jsSetDedup_nodup {α : Type} [DecidableEq α] (l : List α) :
    (jsSetDedup l).Nodup := by
  induction l with
  | nil => simp [jsSetDedup]
  | cons x xs ih =>
    simp only [jsSetDedup, List.nodup_cons]
    refine ⟨?_, List.Nodup.filter _ ih⟩
    intro hmem
    simp [List.mem_filter] at hmem

theorem lexLe_total : ∀ a b : List Char, lexLe a b = true ∨ lexLe b a = true := by
  intro a
  induction a with
  | nil => intro b; exact Or.inl rfl
  | cons x xs ih =>
    intro b
    cases b with
    | nil => exact Or.inr rfl
    | cons y ys =>
      simp only [lexLe]
      by_cases hxy : x.toNat = y.toNat
      · rw [if_pos hxy, if_pos hxy.symm]
        exact ih ys
      · rw [if_neg hxy, if_neg (fun h => hxy h.symm)]
        rcases Nat.lt_or_ge x.toNat y.toNat with h | h
        · exact Or.inl (by simpa using h)
        · exact Or.inr (by simp; omega)

theorem lexLe_trans : ∀ a b c : List Char,
    lexLe a b = true → lexLe b c = true → lexLe a c = true := by
  intro a
  induction a with
  | nil => intro b c _ _; rfl
  | cons x xs ih =>
    intro b c h1 h2
    cases b with
    | nil => simp [lexLe] at h1
    | cons y ys =>
      cases c with
      | nil => simp [lexLe] at h2
      | cons z zs =>
        simp only [lexLe] at h1 h2 ⊢
        by_cases hxy : x.toNat = y.toNat
        · rw [if_pos hxy] at h1
          by_cases hyz : y.toNat = z.toNat
          · rw [if_pos hyz] at h2
            rw [if_pos (hxy.trans hyz)]
            exact ih ys zs h1 h2
          · rw [if_neg hyz] at h2
            have hz : y.toNat < z.toNat := by simpa using h2
            rw [if_neg (by omega)]
            simp; omega
        · rw [if_neg hxy] at h1
          have hx : x.toNat < y.toNat := by simpa using h1
          by_cases hyz : y.toNat = z.toNat
          · rw [if_neg (by omega)]
            simp; omega
          · rw [if_neg hyz] at h2
            have hz : y.toNat < z.toNat := by simpa using h2
            rw [if_neg (by omega)]
            simp; omega

instance : IsTotal String (fun a b => lexLe a.data b.data = true) :=
  ⟨fun a b => lexLe_total a.data b.data⟩

instance : IsTrans String (fun a b => lexLe a.data b.data = true) :=
  ⟨fun a b c => lexLe_trans a.data b.data c.data⟩

theorem mem_sortStrings {s : String} {l : List String} :
    s ∈ sortStrings l ↔ s ∈ l :=
  (List.perm_insertionSort _ l).mem_iff

theorem mem_sortByCreatedDesc {r : EpisodeRow} {l : List EpisodeRow} :
    r ∈ sortByCreatedDesc l ↔ r ∈ l :=
  (List.perm_insertionSort _ l).mem_iff

theorem fetchEpisodeById_eq_none_of_no_match (db : List EpisodeRow) (id : String)
    (o : DbOutcome) (h : ∀ r ∈ db, r.id = id → r.status ≠ "completed") :
    fetchEpisodeById db id o = .ok none := by
  cases o with
  | failed => rfl
  | ok =>
    have hfil : db.filter (fun r => r.id == id && r.status == "completed") = [] := by
      rw [List.filter_eq_nil_iff]
      intro r hr
      simp only [Bool.and_eq_true, beq_iff_eq, not_and]
      intro hid
      exact h r hr hid
    simp [fetchEpisodeById, hfil]

/-- Convenience row used by concrete witnesses: a completed episode. -/
def rowDone : EpisodeRow :=
  { id := "a", title := "A", excerpt := none, cover_url := none,
    created_at := "2024-01-02T00:00:00.000Z", category := some "Health",
    status := "completed", duration := none, length := none, audio_url := none,
    audio := none, transcript := none, host := none, author := none,
    episode_number := none, number := none, tags := none, description := none,
    full_description := none }

/-- Convenience row used by concrete witnesses: a draft episode. -/
def rowDraft : EpisodeRow :=
  { id := "b", title := "B", excerpt := none, cover_url := none,
    created_at := "2024-01-03T00:00:00.000Z", category := some "Health",
    status := "draft", duration := none, length := none, audio_url := none,
    audio := none, transcript := none, host := none, author := none,
    episode_number := none, number := none, tags := none, description := none,
    full_description := none }

/-! ## C1: only completed episodes are externally visible -/

/-- C1: every episode `fetchEpisodes` returns arises from a completed row of
the table, every episode `fetchEpisodeById` returns arises from a completed
row with the requested id, and when no completed row carries an id,
`fetchEpisodeById` returns an absent result for it; records whose status is
not "completed" are therefore never exposed by either function. -/
theorem fetch_functions_expose_only_completed (db : List EpisodeRow) (o : DbOutcome) :
    (∀ eps, fetchEpisodes db o = .ok eps →
      ∀ e ∈ eps, ∃ r ∈ db, r.status = "completed" ∧ e = mapRow r)
    ∧ (∀ id ep, fetchEpisodeById db id o = .ok (some ep) →
      ∃ r ∈ db, r.id = id ∧ r.status = "completed" ∧ ep = mapRow r)
    ∧ (∀ id, (∀ r ∈ db, r.id = id → r.status ≠ "completed") →
      fetchEpisodeById db id o = .ok none) := by
  refine ⟨?_, ?_, fun id h => fetchEpisodeById_eq_none_of_no_match db id o h⟩
  · intro eps heps e he
    cases o with
    | failed => simp [fetchEpisodes] at heps
    | ok =>
      simp only [fetchEpisodes, Except.ok.injEq] at heps
      subst heps
      obtain ⟨r, hr, hre⟩ := List.mem_map.mp he
      rw [mem_sortByCreatedDesc] at hr
      obtain ⟨hrdb, hst⟩ := List.mem_filter.mp hr
      exact ⟨r, hrdb, by simpa using hst, hre.symm⟩
  · intro id ep hep
    cases o with
    | failed => simp [fetchEpisodeById] at hep
    | ok =>
      simp only [fetchEpisodeById] at hep
      rcases hfil : db.filter (fun r => r.id == id && r.status == "completed") with
        _ | ⟨r, _ | ⟨r2, rest⟩⟩ <;> rw [hfil] at hep <;>
        simp only [Except.ok.injEq, Option.some.injEq, reduceCtorEq] at hep
      have hr : r ∈ db.filter (fun r => r.id == id && r.status == "completed") := by
        rw [hfil]; exact List.mem_singleton.mpr rfl
      obtain ⟨hrdb, hcond⟩ := List.mem_filter.mp hr
      simp only [Bool.and_eq_true, beq_iff_eq] at hcond
      exact ⟨r, hrdb, hcond.1, hcond.2, hep.symm⟩

/-- C1 witness: on a concrete two-row table the completed row is returned
and the draft row's id resolves to an absent result. -/
theorem fetch_functions_expose_only_completed_witness :
    (fetchEpisodes [rowDraft, rowDone] DbOutcome.ok = .ok [mapRow rowDone]) ∧
    (∃ r ∈ [rowDraft, rowDone], r.status = "completed" ∧ mapRow rowDone = mapRow r) ∧
    fetchEpisodeById [rowDraft, rowDone] "b" DbOutcome.ok = .ok none := by
  refine ⟨rfl, ?_, ?_⟩
  · exact (fetch_functions_expose_only_completed [rowDraft, rowDone] DbOutcome.ok).1
      [mapRow rowDone] rfl (mapRow rowDone) (List.mem_singleton.mpr rfl)
  · exact (fetch_functions_expose_only_completed [rowDraft, rowDone] DbOutcome.ok).2.2
      "b" (by decide)

/-! ## C3: error behaviour of fetchEpisodeById -/

/-- C3 counterexample: the claim says `fetchEpisodeById` throws an
`UpstreamError` exactly when the datastore read fails at the transport or
query level, but at a concrete failed read the function returns an absent
result instead of throwing (the code logs the error object and returns
`null`). -/
theorem fetchEpisodeById_never_throws_counterexample :
    fetchEpisodeById [] "x" DbOutcome.failed = .ok none ∧
    ∀ e : DbError, fetchEpisodeById [] "x" DbOutcome.failed ≠ .error e := by
  refine ⟨rfl, ?_⟩
  intro e h
  simp [fetchEpisodeById] at h

/-- C3 amended: `fetchEpisodeById` never throws at all; it returns an absent
result both when no completed episode matches the id and when the datastore
read fails. -/
theorem fetchEpisodeById_total_absent (db : List EpisodeRow) (id : String) (o : DbOutcome) :
    (∃ v, fetchEpisodeById db id o = .ok v)
    ∧ (o = .failed → fetchEpisodeById db id o = .ok none)
    ∧ ((∀ r ∈ db, r.id = id → r.status ≠ "completed") →
      fetchEpisodeById db id o = .ok none) := by
  refine ⟨?_, ?_, fun h => fetchEpisodeById_eq_none_of_no_match db id o h⟩
  · cases o with
    | failed => exact ⟨none, rfl⟩
    | ok =>
      simp only [fetchEpisodeById]
      rcases hfil : db.filter (fun r => r.id == id && r.status == "completed") with
        _ | ⟨r, _ | ⟨r2, rest⟩⟩
      · exact ⟨none, by rw [hfil]⟩
      · exact ⟨some (mapRow r), by rw [hfil]⟩
      · exact ⟨none, by rw [hfil]⟩
  · rintro rfl; rfl

/-- C3 witness: concrete instances of the amended statement, both for a
failed read and for an id without a completed match. -/
theorem fetchEpisodeById_total_absent_witness :
    (DbOutcome.failed = DbOutcome.failed →
      fetchEpisodeById [rowDraft] "b" DbOutcome.failed = .ok none) ∧
    ((∀ r ∈ [rowDraft], r.id = "b" → r.status ≠ "completed") →
      fetchEpisodeById [rowDraft] "b" DbOutcome.ok = .ok none) ∧
    fetchEpisodeById [rowDraft] "b" DbOutcome.ok = .ok none :=
  ⟨(fetchEpisodeById_total_absent [rowDraft] "b" DbOutcome.failed).2.1,
   (fetchEpisodeById_total_absent [rowDraft] "b" DbOutcome.ok).2.2,
   (fetchEpisodeById_total_absent [rowDraft] "b" DbOutcome.ok).2.2 (by decide)⟩

/-! ## C7: fetchCategories returns the sorted distinct categories -/

/-- C7: on a successful read, `fetchCategories` returns a duplicate-free
list, sorted ascending in code-point (ordinal) string order, whose members
are exactly the non-null category values occurring among completed rows. -/
theorem fetchCategories_sorted_nodup_complete (db : List EpisodeRow) (o : DbOutcome)
    (cats : List String) (h : fetchCategories db o = .ok cats) :
    cats.Nodup
    ∧ List.Sorted (fun a b => lexLe a.data b.data = true) cats
    ∧ ∀ s, (s ∈ cats ↔ ∃ r ∈ db, r.status = "completed" ∧ r.category = some s) := by
  cases o with
  | failed => simp [fetchCategories] at h
  | ok =>
    simp only [fetchCategories, Except.ok.injEq] at h
    subst h
    refine ⟨?_, ?_, ?_⟩
    · unfold sortStrings
      refine (List.perm_insertionSort
        (fun a b : String => lexLe a.data b.data = true) _).symm.nodup ?_
      refine List.Nodup.filterMap ?_ (jsSetDedup_nodup _)
      intro a a' b hb hb'
      cases a <;> cases a' <;> simp_all
    · exact List.sorted_insertionSort _ _
    · intro s
      rw [mem_sortStrings, List.mem_filterMap]
      constructor
      · rintro ⟨oc, hoc, hosome⟩
        rw [mem_jsSetDedup] at hoc
        obtain ⟨r, hr, hrc⟩ := List.mem_map.mp hoc
        obtain ⟨hrdb, hcond⟩ := List.mem_filter.mp hr
        simp only [Bool.and_eq_true, beq_iff_eq] at hcond
        refine ⟨r, hrdb, hcond.1, ?_⟩
        rw [hrc, hosome]
      · rintro ⟨r, hrdb, hst, hcat⟩
        refine ⟨some s, ?_, rfl⟩
        rw [mem_jsSetDedup]
        refine List.mem_map.mpr ⟨r, List.mem_filter.mpr ⟨hrdb, ?_⟩, hcat⟩
        simp [hst, hcat]

instance {ε α : Type} [DecidableEq ε] [DecidableEq α] : DecidableEq (Except ε α) := fun a b =>
  match a, b with
  | .ok x, .ok y =>
    if h : x = y then isTrue (by rw [h]) else isFalse (by intro hh; cases hh; exact h rfl)
  | .ok _, .error _ => isFalse (by intro hh; cases hh)
  | .error _, .ok _ => isFalse (by intro hh; cases hh)
  | .error x, .error y =>
    if h : x = y then isTrue (by rw [h]) else isFalse (by intro hh; cases hh; exact h rfl)

/-- C7 witness: the concrete two-row table yields exactly the category list
with the single label "Health". -/
theorem fetchCategories_sorted_nodup_complete_witness :
    fetchCategories [rowDraft, rowDone] DbOutcome.ok = .ok ["Health"] ∧
    (["Health"] : List String).Nodup ∧
    ("Health" ∈ (["Health"] : List String) ↔
      ∃ r ∈ [rowDraft, rowDone], r.status = "completed" ∧ r.category = some "Health") :=
  ⟨by decide,
   (fetchCategories_sorted_nodup_complete [rowDraft, rowDone] DbOutcome.ok ["Health"]
     (by decide)).1,
   (fetchCategories_sorted_nodup_complete [rowDraft, rowDone] DbOutcome.ok ["Health"]
     (by decide)).2.2 "Health"⟩

/-! ## C10: non-GET, non-OPTIONS requests are rejected without a read -/

/-- C10: for any method other than GET and OPTIONS, the episode-list,
single-episode, categories and default preview-image handlers all respond
405 and issue no datastore read. -/
theorem non_get_rejected_without_read (method : String)
    (hg : method ≠ "GET") (ho : method ≠ "OPTIONS")
    (db : List EpisodeRow) (o : DbOutcome) (qid : Option String) (imgOk : Bool) :
    (episodesListHandler method db o).status = 405
    ∧ (episodesListHandler method db o).dbRead = false
    ∧ (episodeByIdApiHandler method qid db o).status = 405
    ∧ (episodeByIdApiHandler method qid db o).dbRead = false
    ∧ (categoriesHandler method db o).status = 405
    ∧ (categoriesHandler method db o).dbRead = false
    ∧ (ogImageDefaultHandler method imgOk).status = 405
    ∧ (ogImageDefaultHandler method imgOk).dbRead = false := by
  have h1 : (method == "OPTIONS") = false := by simp [ho]
  have h2 : (method == "GET") = false := by simp [hg]
  simp [episodesListHandler, episodeByIdApiHandler, categoriesHandler,
    ogImageDefaultHandler, h1, h2]

/-- C10 witness: a concrete POST request against every handler. -/
theorem non_get_rejected_without_read_witness :
    ("POST" : String) ≠ "GET" ∧ ("POST" : String) ≠ "OPTIONS" ∧
    ((episodesListHandler "POST" [] DbOutcome.ok).status = 405
      ∧ (episodesListHandler "POST" [] DbOutcome.ok).dbRead = false
      ∧ (episodeByIdApiHandler "POST" none [] DbOutcome.ok).status = 405
      ∧ (episodeByIdApiHandler "POST" none [] DbOutcome.ok).dbRead = false
      ∧ (categoriesHandler "POST" [] DbOutcome.ok).status = 405
      ∧ (categoriesHandler "POST" [] DbOutcome.ok).dbRead = false
      ∧ (ogImageDefaultHandler "POST" true).status = 405
      ∧ (ogImageDefaultHandler "POST" true).dbRead = false) :=
  ⟨by decide, by decide,
   non_get_rejected_without_read "POST" (by decide) (by decide) [] DbOutcome.ok none true⟩

/-! ## C8: the episode preview-image endpoint degrades to the default image -/

/-- C8: for a GET request to the episode preview-image handler, every
data-related failure (absent episode, failed datastore read, failed episode
rasterization) yields the default branded 1200 by 630 image with status 200
as long as the default image itself renders; status 400 is never produced
while the identifier is present (it can only concern a structurally missing
identifier), and status 500 occurs only when the default-image fallback
itself fails to render. -/
theorem og_image_id_degrades_to_default (qid : Option String) (db : List EpisodeRow)
    (o : DbOutcome) (mainOk defaultOk : Bool) :
    (∀ id, qid = some id → id ≠ "" →
      (fetchEpisodeById db id o = .ok none ∨ o = .failed ∨ mainOk = false) →
      defaultOk = true →
      ogImageIdHandler "GET" qid db o mainOk defaultOk =
        ⟨200, OgBody.png OgImageKind.defaultArt 1200 630, true⟩)
    ∧ ((ogImageIdHandler "GET" qid db o mainOk defaultOk).status = 400 →
      jsTruthyStr qid = false)
    ∧ ((ogImageIdHandler "GET" qid db o mainOk defaultOk).status = 500 →
      defaultOk = false) := by
  refine ⟨?_, ?_, ?_⟩
  · rintro id rfl hid hfail hdef
    subst hdef
    have hid' : (id == "") = false := by simp [hid]
    rcases hfail with hnone | hfailed | hmain
    · simp [ogImageIdHandler, hid', serveDefaultImage, hnone]
    · subst hfailed
      have hnone : fetchEpisodeById db id DbOutcome.failed = .ok none := rfl
      simp [ogImageIdHandler, hid', serveDefaultImage, hnone]
    · subst hmain
      rcases hf : fetchEpisodeById db id o with e | v
      · simp [ogImageIdHandler, hid', serveDefaultImage, hf]
      · rcases v with _ | ep <;> simp [ogImageIdHandler, hid', serveDefaultImage, hf]
  · intro h400
    rcases qid with _ | id
    · rfl
    · by_cases hid : (id == "") = true
      · simp [jsTruthyStr]
        simpa using hid
      · exfalso
        simp only [Bool.not_eq_true] at hid
        simp only [ogImageIdHandler, hid, serveDefaultImage] at h400
        rcases hf : fetchEpisodeById db id o with e | v
        · rw [hf] at h400
          rcases defaultOk <;> simp at h400
        · rw [hf] at h400
          rcases v with _ | ep
          · rcases defaultOk <;> simp at h400
          · rcases mainOk <;> rcases defaultOk <;> simp at h400
  · intro h500
    by_contra hdef
    simp only [Bool.not_eq_false] at hdef
    subst hdef
    rcases qid with _ | id
    · simp [ogImageIdHandler, serveDefaultImage] at h500
    · by_cases hid : (id == "") = true
      · simp [ogImageIdHandler, hid, serveDefaultImage] at h500
      · simp only [Bool.not_eq_true] at hid
        simp only [ogImageIdHandler, hid, serveDefaultImage] at h500
        rcases hf : fetchEpisodeById db id o with e | v
        · rw [hf] at h500
          simp at h500
        · rw [hf] at h500
          rcases v with _ | ep
          · simp at h500
          · rcases mainOk <;> simp at h500

/-- C8 witness: on an empty table the fetch is absent and the handler serves
the default image with status 200. -/
theorem og_image_id_degrades_to_default_witness :
    (fetchEpisodeById [] "x" DbOutcome.ok = .ok none) ∧
    ogImageIdHandler "GET" (some "x") [] DbOutcome.ok true true =
      ⟨200, OgBody.png OgImageKind.defaultArt 1200 630, true⟩ :=
  ⟨by decide,
   (og_image_id_degrades_to_default (some "x") [] DbOutcome.ok true true).1
     "x" rfl (by decide) (Or.inl (by decide)) rfl⟩

/-! ## C2 and C6: slug resolution -/

theorem toLower_eq_self_of_isSlugChar (c : Char) (h : isSlugChar c = true) :
    c.toLower = c := by
  simp only [isSlugChar, Bool.or_eq_true, Bool.and_eq_true, decide_eq_true_eq,
    beq_iff_eq] at h
  rcases h with ⟨ha, hb⟩ | ⟨ha, hb⟩ | rfl
  · simp only [Char.toLower]
    rw [if_neg]
    omega
  · simp only [Char.toLower]
    rw [if_neg]
    omega
  · decide

theorem map_toLower_fixed (l : List Char) (h : ∀ x ∈ l, x.toLower = x) :
    l.map Char.toLower = l := by
  induction l with
  | nil => rfl
  | cons a as ih =>
    simp only [List.map_cons, h a (List.mem_cons_self a as)]
    rw [ih (fun x hx => h x (List.mem_cons_of_mem a hx))]

/-- The slug of a label is made of slug characters only, so lowercasing it
again changes nothing. -/
theorem jsToLower_categoryToSlug (c : String) :
    jsToLower (categoryToSlug c) = categoryToSlug c := by
  simp only [jsToLower, categoryToSlug]
  congr 1
  refine map_toLower_fixed _ ?_
  intro x hx
  exact toLower_eq_self_of_isSlugChar x (List.mem_filter.mp hx).2

/-- C2 counterexample: slug resolution is not a pure inverse of slug
formation when two canonical labels collide: with the fetched list
containing "Health" and "HEALTH", resolving the slug derived from "HEALTH"
returns the earlier label "Health", not "HEALTH" itself. -/
theorem slug_roundtrip_counterexample :
    ("HEALTH" : String) ∈ ["Health", "HEALTH"] ∧
    categoryToSlug "HEALTH" = "health" ∧
    slugToCategory ["Health", "HEALTH"] (categoryToSlug "HEALTH") = some "Health" ∧
    slugToCategory ["Health", "HEALTH"] (categoryToSlug "HEALTH") ≠ some "HEALTH" := by
  refine ⟨by decide, by decide, by decide, by decide⟩

/-- C2 amended: when the canonical label `c` is the only member of the
fetched list that matches the slug derived from `c` under any of the three
resolution rules, resolving that slug returns exactly `c` (and such a match
always exists, since `c` itself satisfies the slug rule). -/
theorem slug_resolution_roundtrip_of_unique (cats : List String) (c : String)
    (hmem : c ∈ cats)
    (huniq : ∀ c' ∈ cats,
      (jsToLower c' = categoryToSlug c ∨ categoryToSlug c' = categoryToSlug c ∨
       looseNormalize c' = stripHyphens (categoryToSlug c)) → c' = c) :
    slugToCategory cats (categoryToSlug c) = some c := by
  have hfix : jsToLower (categoryToSlug c) = categoryToSlug c := jsToLower_categoryToSlug c
  unfold slugToCategory
  rcases h1 : cats.find? (fun x => jsToLower x == jsToLower (categoryToSlug c)) with _ | c1
  · rcases h2 : cats.find? (fun x => categoryToSlug x == jsToLower (categoryToSlug c)) with _ | c2
    · exfalso
      have := List.find?_eq_none.mp h2 c hmem
      rw [hfix] at this
      simp at this
    · have hp := List.find?_some h2
      rw [hfix, beq_iff_eq] at hp
      have := huniq c2 (List.mem_of_find?_eq_some h2) (Or.inr (Or.inl hp))
      rw [this]
  · have hp := List.find?_some h1
    rw [hfix, beq_iff_eq] at hp
    have := huniq c1 (List.mem_of_find?_eq_some h1) (Or.inl hp)
    rw [this]

/-- C2 witness: a singleton list trivially satisfies the uniqueness side
condition and round-trips. -/
theorem slug_resolution_roundtrip_of_unique_witness :
    ("Health" : String) ∈ ["Health"] ∧
    slugToCategory ["Health"] (categoryToSlug "Health") = some "Health" :=
  ⟨by decide,
   slug_resolution_roundtrip_of_unique ["Health"] "Health" (by decide) (by decide)⟩

/-- C6 counterexample: when another label that slug-matches the segment
sits earlier in the fetched list, "business-economy" does not resolve to
"Business & Economy" even though that label is present. -/
theorem business_economy_counterexample :
    ("Business & Economy" : String) ∈ ["business economy", "Business & Economy"] ∧
    slugToCategory ["business economy", "Business & Economy"] "business-economy" =
      some "business economy" ∧
    slugToCategory ["business economy", "Business & Economy"] "business-economy" ≠
      some "Business & Economy" := by
  refine ⟨by decide, by decide, by decide⟩

/-- C6 amended: if "Business & Economy" is in the fetched list and is the
only label matching the segment "business-economy" under any of the three
resolution rules, then the segment resolves to it, via the loose
hyphen-insensitive rule. -/
theorem business_economy_resolves (cats : List String)
    (hmem : ("Business & Economy" : String) ∈ cats)
    (huniq : ∀ c' ∈ cats,
      (jsToLower c' = "business-economy" ∨ categoryToSlug c' = "business-economy" ∨
       looseNormalize c' = "businesseconomy") → c' = "Business & Economy") :
    slugToCategory cats "business-economy" = some "Business & Economy" := by
  have hlow : jsToLower "business-economy" = "business-economy" := by decide
  have h1 : cats.find? (fun x => jsToLower x == jsToLower "business-economy") = none := by
    rw [List.find?_eq_none]
    intro x hx hpx
    rw [hlow, beq_iff_eq] at hpx
    have hbe := huniq x hx (Or.inl hpx)
    rw [hbe] at hpx
    exact absurd hpx (by decide)
  have h2 : cats.find? (fun x => categoryToSlug x == jsToLower "business-economy") = none := by
    rw [List.find?_eq_none]
    intro x hx hpx
    rw [hlow, beq_iff_eq] at hpx
    have hbe := huniq x hx (Or.inr (Or.inl hpx))
    rw [hbe] at hpx
    exact absurd hpx (by decide)
  unfold slugToCategory
  rw [h1, h2]
  rcases h3 : cats.find?
      (fun x => looseNormalize x == stripHyphens (jsToLower "business-economy")) with _ | c3
  · exfalso
    have := List.find?_eq_none.mp h3 _ hmem
    rw [hlow] at this
    exact this (by decide)
  · have hp := List.find?_some h3
    rw [hlow, beq_iff_eq] at hp
    have heq : stripHyphens "business-economy" = "businesseconomy" := by decide
    rw [heq] at hp
    have := huniq c3 (List.mem_of_find?_eq_some h3) (Or.inr (Or.inr hp))
    rw [this]

/-- C6 witness: with the singleton fetched list the hypotheses hold and the
segment resolves to the compound label. -/
theorem business_economy_resolves_witness :
    ("Business & Economy" : String) ∈ ["Business & Economy"] ∧
    slugToCategory ["Business & Economy"] "business-economy" =
      some "Business & Economy" :=
  ⟨by decide,
   business_economy_resolves ["Business & Economy"] (by decide) (by decide)⟩

/-! ## C4: HTML escaping of substituted episode text -/

theorem not_mem_replaceAllChar_self (c : Char) (repl : List Char) (hc : c ∉ repl)
    (l : List Char) : c ∉ replaceAllChar c repl l := by
  intro hmem
  simp only [replaceAllChar, List.mem_flatMap] at hmem
  obtain ⟨a, _, ha⟩ := hmem
  by_cases hac : a = c
  · rw [if_pos hac] at ha
    exact hc ha
  · rw [if_neg hac] at ha
    exact hac (List.mem_singleton.mp ha).symm

theorem not_mem_replaceAllChar (c d : Char) (repl l : List Char) (hc : c ∉ repl)
    (hl : c ∉ l) : c ∉ replaceAllChar d repl l := by
  intro hmem
  simp only [replaceAllChar, List.mem_flatMap] at hmem
  obtain ⟨a, hal, ha⟩ := hmem
  by_cases had : a = d
  · rw [if_pos had] at ha
    exact hc ha
  · rw [if_neg had] at ha
    rw [List.mem_singleton.mp ha] at hl
    exact hl hal

theorem lt_not_mem_escapeHtml (l : List Char) : '<' ∉ escapeHtml l := by
  unfold escapeHtml
  refine not_mem_replaceAllChar _ _ _ _ (by decide) ?_
  refine not_mem_replaceAllChar _ _ _ _ (by decide) ?_
  refine not_mem_replaceAllChar _ _ _ _ (by decide) ?_
  exact not_mem_replaceAllChar_self _ _ (by decide) _

theorem gt_not_mem_escapeHtml (l : List Char) : '>' ∉ escapeHtml l := by
  unfold escapeHtml
  refine not_mem_replaceAllChar _ _ _ _ (by decide) ?_
  refine not_mem_replaceAllChar _ _ _ _ (by decide) ?_
  exact not_mem_replaceAllChar_self _ _ (by decide) _

theorem quote_not_mem_escapeHtml (l : List Char) : quoteChar ∉ escapeHtml l := by
  unfold escapeHtml
  refine not_mem_replaceAllChar _ _ _ _ (by decide) ?_
  exact not_mem_replaceAllChar_self _ _ (by decide) _

theorem apos_not_mem_escapeHtml (l : List Char) : aposChar ∉ escapeHtml l :=
  not_mem_replaceAllChar_self _ _ (by decide) _

/-- C4 counterexample: the claim says every substituted text is
HTML-entity-escaped before insertion, but the episode URL is substituted
verbatim: for an episode id containing a double quote, the substituted
`og:url` content contains a raw quote and therefore is not the escape of
any source text (escaped text never contains a raw quote). -/
theorem episode_substitutions_not_all_escaped_counterexample :
    ("https://newsangle.co/episode/a\"b" : String) ∈
      episodeSubstitutions (mapRow rowDone) "a\"b" "newsangle.co" "https" ∧
    ¬ ∀ s ∈ episodeSubstitutions (mapRow rowDone) "a\"b" "newsangle.co" "https",
        ∃ t : String, escapeHtmlS t = s := by
  have hm : ("https://newsangle.co/episode/a\"b" : String) ∈
      episodeSubstitutions (mapRow rowDone) "a\"b" "newsangle.co" "https" := by decide
  refine ⟨hm, ?_⟩
  intro hall
  obtain ⟨t, ht⟩ := hall _ hm
  have hq : quoteChar ∈ ("https://newsangle.co/episode/a\"b" : String).data := by decide
  rw [← ht] at hq
  exact quote_not_mem_escapeHtml t.data hq

/-- A safely escaped substitution value: the escape of some source text,
containing no raw angle brackets or quotes, so that inserting it as a
content attribute cannot break the surrounding tag. -/
def EscapedSubstitution (s : String) : Prop :=
  (∃ t : String, escapeHtmlS t = s) ∧
  '<' ∉ s.data ∧ '>' ∉ s.data ∧ quoteChar ∉ s.data ∧ aposChar ∉ s.data

theorem escapedSubstitution_escapeHtmlS (t : String) :
    EscapedSubstitution (escapeHtmlS t) :=
  ⟨⟨t, rfl⟩, lt_not_mem_escapeHtml t.data, gt_not_mem_escapeHtml t.data,
   quote_not_mem_escapeHtml t.data, apos_not_mem_escapeHtml t.data⟩

theorem tagMatch_of_escaped (t : String) (p : TagPattern)
    (hp : p ∈ episodeRenderPatterns) (hpost : p.post ≠ []) :
    IsTagMatch p (p.pre ++ (escapeHtmlS t).data ++ p.post) := by
  refine ⟨(escapeHtmlS t).data, rfl, ?_, fun h => absurd h hpost⟩
  have hq : quoteChar ∉ (escapeHtmlS t).data := quote_not_mem_escapeHtml t.data
  have hl : '<' ∉ (escapeHtmlS t).data := lt_not_mem_escapeHtml t.data
  fin_cases hp <;> first | exact hq | exact hl

/-- C4 amended: the episode-derived text the renderer substitutes (the
episode title, the description fallback chain, and the document title) is
HTML-entity-escaped before insertion; escaped text contains no raw `<`,
`>`, quote or apostrophe, and inserting it into any recognized wildcard tag
yields a well-formed instance of that tag again, so a title containing `<`
and `&` cannot break the document.  URL-valued and fixed-literal
substitutions, by contrast, are inserted verbatim. -/
theorem episode_text_substitutions_escaped (ep : Episode) (eid host protocol : String) :
    ∀ s ∈ episodeTextSubstitutions ep,
      s ∈ episodeSubstitutions ep eid host protocol ∧
      EscapedSubstitution s ∧
      ∀ p ∈ episodeRenderPatterns, p.post ≠ [] →
        IsTagMatch p (p.pre ++ s.data ++ p.post) := by
  intro s hs
  simp only [episodeTextSubstitutions, List.mem_cons, List.not_mem_nil, or_false] at hs
  rcases hs with rfl | rfl | rfl
  · exact ⟨by simp [episodeSubstitutions], escapedSubstitution_escapeHtmlS _,
      fun p hp hpost => tagMatch_of_escaped _ p hp hpost⟩
  · exact ⟨by simp [episodeSubstitutions], escapedSubstitution_escapeHtmlS _,
      fun p hp hpost => tagMatch_of_escaped _ p hp hpost⟩
  · exact ⟨by simp [episodeSubstitutions], escapedSubstitution_escapeHtmlS _,
      fun p hp hpost => tagMatch_of_escaped _ p hp hpost⟩

/-- C4 witness: the escaped title of a concrete episode is among the
renderer's substitutions and is safely escaped. -/
theorem episode_text_substitutions_escaped_witness :
    escapeHtmlS "A" ∈ episodeTextSubstitutions (mapRow rowDone) ∧
    (escapeHtmlS "A" ∈ episodeSubstitutions (mapRow rowDone) "a" "newsangle.co" "https" ∧
     EscapedSubstitution (escapeHtmlS "A") ∧
     ∀ p ∈ episodeRenderPatterns, p.post ≠ [] →
       IsTagMatch p (p.pre ++ (escapeHtmlS "A").data ++ p.post)) :=
  ⟨by decide,
   episode_text_substitutions_escaped (mapRow rowDone) "a" "newsangle.co" "https"
     (escapeHtmlS "A") (by decide)⟩

/-! ## C9: sitemap contents

Besides the shape of the entry list, the claim asserts the output is
well-formed XML.  `xmlWellFormed` is a conservative XML scanner: it checks
that tags balance (each closing tag matches the innermost open one), that
attribute strings are closed, that processing instructions such as the
prolog are terminated, and that every ampersand begins a valid entity
reference (`amp`, `lt`, `gt`, `quot`, `apos` or numeric).  It does not
enforce the full XML grammar (for instance it accepts a document without a
root element and permits a processing instruction anywhere), but every rule
it does enforce is a rule of XML, so a document it rejects is genuinely not
well-formed. -/

/-- Scanner state: the stack holds the names of the currently open
elements, innermost first. -/
inductive XmlState
  | content (stack : List (List Char))
  | afterLt (stack : List (List Char))
  | openTag (stack : List (List Char)) (acc : List Char)
  | inAttrs (stack : List (List Char)) (name : List Char)
  | inAttrString (stack : List (List Char)) (name : List Char)
  | selfSlash (stack : List (List Char))
  | closeTag (stack : List (List Char)) (acc : List Char)
  | procInst (stack : List (List Char))
  | procInstQ (stack : List (List Char))
  | inEntity (stack : List (List Char)) (acc : List Char)
deriving DecidableEq, Repr

/-- The entity names XML predefines, plus numeric character references. -/
def validEntityName (acc : List Char) : Bool :=
  acc = "amp".data || acc = "lt".data || acc = "gt".data ||
  acc = "quot".data || acc = "apos".data ||
  (match acc with
   | '#' :: ds =>
     !ds.isEmpty && ds.all (fun c => decide (48 ≤ c.toNat) && decide (c.toNat ≤ 57))
   | _ => false)

/-- One scanner transition; `none` is a well-formedness violation. -/
def xmlStep : XmlState → Char → Option XmlState
  | .content stack, c =>
    if c = '<' then some (.afterLt stack)
    else if c = '&' then some (.inEntity stack [])
    else some (.content stack)
  | .afterLt stack, c =>
    if c = '/' then some (.closeTag stack [])
    else if c = '?' then some (.procInst stack)
    else if c = '!' then none
    else if c = '>' then none
    else if c = ' ' then none
    else if c = '<' then none
    else if c = '&' then none
    else some (.openTag stack [c])
  | .openTag stack acc, c =>
    if c = '>' then some (.content (acc :: stack))
    else if c = ' ' then some (.inAttrs stack acc)
    else if c = '/' then some (.selfSlash stack)
    else if c = '<' then none
    else some (.openTag stack (acc ++ [c]))
  | .inAttrs stack name, c =>
    if c = quoteChar then some (.inAttrString stack name)
    else if c = '>' then some (.content (name :: stack))
    else if c = '/' then some (.selfSlash stack)
    else if c = '<' then none
    else some (.inAttrs stack name)
  | .inAttrString stack name, c =>
    if c = quoteChar then some (.inAttrs stack name)
    else some (.inAttrString stack name)
  | .selfSlash stack, c =>
    if c = '>' then some (.content stack) else none
  | .closeTag stack acc, c =>
    if c = '>' then
      match stack with
      | [] => none
      | top :: rest => if acc = top then some (.content rest) else none
    else if c = '<' then none
    else some (.closeTag stack (acc ++ [c]))
  | .procInst stack, c =>
    if c = '?' then some (.procInstQ stack) else some (.procInst stack)
  | .procInstQ stack, c =>
    if c = '>' then some (.content stack)
    else if c = '?' then some (.procInstQ stack)
    else some (.procInst stack)
  | .inEntity stack acc, c =>
    if c = ';' then (if validEntityName acc then some (.content stack) else none)
    else if c = '&' then none
    else if c = '<' then none
    else some (.inEntity stack (acc ++ [c]))

/-- Run the scanner over a character list. -/
def xmlScan : XmlState → List Char → Option XmlState
  | st, [] => some st
  | st, c :: cs =>
    match xmlStep st c with
    | none => none
    | some st1 => xmlScan st1 cs

/-- A document is accepted when the scan completes with every tag closed. -/
def xmlWellFormed (l : List Char) : Bool :=
  xmlScan (XmlState.content []) l == some (XmlState.content [])

/-- Characters that cannot start markup or an entity reference; text made
of them is inert for the scanner. -/
def xmlBenignChar (c : Char) : Bool := !(c == '&' || c == '<')

/-- Convenience row used by the C9 counterexample: a completed episode in
the category "Business & Economy". -/
def rowBiz : EpisodeRow :=
  { id := "a", title := "A", excerpt := none, cover_url := none,
    created_at := "2024-01-02T00:00:00.000Z", category := some "Business & Economy",
    status := "completed", duration := none, length := none, audio_url := none,
    audio := none, transcript := none, host := none, author := none,
    episode_number := none, number := none, tags := none, description := none,
    full_description := none }

theorem xmlScan_append (a : List Char) : ∀ (st : XmlState) (b : List Char),
    xmlScan st (a ++ b) = match xmlScan st a with
      | none => none
      | some st1 => xmlScan st1 b := by
  induction a with
  | nil => intro st b; rfl
  | cons c cs ih =>
    intro st b
    show xmlScan st (c :: (cs ++ b)) = _
    cases hs : xmlStep st c with
    | none => simp [xmlScan, hs]
    | some st1 => simp [xmlScan, hs, ih st1 b]

theorem xmlScan_append_of {st st2 : XmlState} (st1 : XmlState) {a b : List Char}
    (ha : xmlScan st a = some st1) (hb : xmlScan st1 b = some st2) :
    xmlScan st (a ++ b) = some st2 := by
  rw [xmlScan_append a st b, ha]
  exact hb

theorem xmlStep_content_benign (stack : List (List Char)) (c : Char)
    (h : xmlBenignChar c = true) :
    xmlStep (XmlState.content stack) c = some (XmlState.content stack) := by
  simp only [xmlBenignChar, Bool.not_eq_true', Bool.or_eq_false_iff, beq_eq_false_iff_ne,
    ne_eq] at h
  simp only [xmlStep]
  rw [if_neg h.2, if_neg h.1]

theorem xmlScan_content_benign (l : List Char) : ∀ stack : List (List Char),
    (∀ c ∈ l, xmlBenignChar c = true) →
    xmlScan (XmlState.content stack) l = some (XmlState.content stack) := by
  induction l with
  | nil => intro stack _; rfl
  | cons c cs ih =>
    intro stack h
    show xmlScan (XmlState.content stack) (c :: cs) = _
    simp only [xmlScan, xmlStep_content_benign stack c (h c (List.mem_cons_self c cs))]
    exact ih stack (fun x hx => h x (List.mem_cons_of_mem c hx))

theorem xmlScan_homeUrlEntry (st : List (List Char)) (now : String)
    (hnow : ∀ c ∈ now.data, xmlBenignChar c = true) :
    xmlScan (XmlState.content st) (homeUrlEntry now).data =
      some (XmlState.content st) := by
  have hfd : ∀ c ∈ (formatDate now).data, xmlBenignChar c = true :=
    fun c hc => hnow c (List.takeWhile_subset _ hc)
  simp only [homeUrlEntry, String.data_append]
  refine xmlScan_append_of (XmlState.content ("lastmod".data :: "url".data :: st)) ?_ rfl
  refine xmlScan_append_of (XmlState.content ("lastmod".data :: "url".data :: st)) ?_
    (xmlScan_content_benign _ _ hfd)
  refine xmlScan_append_of (XmlState.content ("loc".data :: "url".data :: st)) ?_ rfl
  exact xmlScan_append_of (XmlState.content ("loc".data :: "url".data :: st)) rfl rfl

theorem xmlScan_categoryUrlEntry (st : List (List Char)) (now category : String)
    (hnow : ∀ c ∈ now.data, xmlBenignChar c = true)
    (hcat : ∀ c ∈ category.data, xmlBenignChar c = true) :
    xmlScan (XmlState.content st) (categoryUrlEntry now category).data =
      some (XmlState.content st) := by
  have hfd : ∀ c ∈ (formatDate now).data, xmlBenignChar c = true :=
    fun c hc => hnow c (List.takeWhile_subset _ hc)
  simp only [categoryUrlEntry, String.data_append]
  refine xmlScan_append_of (XmlState.content ("lastmod".data :: "url".data :: st)) ?_ rfl
  refine xmlScan_append_of (XmlState.content ("lastmod".data :: "url".data :: st)) ?_
    (xmlScan_content_benign _ _ hfd)
  refine xmlScan_append_of (XmlState.content ("loc".data :: "url".data :: st)) ?_ rfl
  refine xmlScan_append_of (XmlState.content ("loc".data :: "url".data :: st)) ?_
    (xmlScan_content_benign _ _ hcat)
  refine xmlScan_append_of (XmlState.content ("loc".data :: "url".data :: st)) ?_ rfl
  exact xmlScan_append_of (XmlState.content ("loc".data :: "url".data :: st)) rfl rfl

theorem xmlScan_episodeUrlEntry (st : List (List Char)) (ep : Episode)
    (hid : ∀ c ∈ ep.id.data, xmlBenignChar c = true)
    (hdate : ∀ c ∈ ep.createdAt.data, xmlBenignChar c = true) :
    xmlScan (XmlState.content st) (episodeUrlEntry ep).data =
      some (XmlState.content st) := by
  have hfd : ∀ c ∈ (formatDate ep.createdAt).data, xmlBenignChar c = true :=
    fun c hc => hdate c (List.takeWhile_subset _ hc)
  simp only [episodeUrlEntry, String.data_append]
  refine xmlScan_append_of (XmlState.content ("lastmod".data :: "url".data :: st)) ?_ rfl
  refine xmlScan_append_of (XmlState.content ("lastmod".data :: "url".data :: st)) ?_
    (xmlScan_content_benign _ _ hfd)
  refine xmlScan_append_of (XmlState.content ("loc".data :: "url".data :: st)) ?_ rfl
  refine xmlScan_append_of (XmlState.content ("loc".data :: "url".data :: st)) ?_
    (xmlScan_content_benign _ _ hid)
  refine xmlScan_append_of (XmlState.content ("loc".data :: "url".data :: st)) ?_ rfl
  exact xmlScan_append_of (XmlState.content ("loc".data :: "url".data :: st)) rfl rfl

theorem xmlScan_joinSep (l : List String) : ∀ st : List (List Char),
    (∀ u ∈ l, xmlScan (XmlState.content st) u.data = some (XmlState.content st)) →
    xmlScan (XmlState.content st) (joinSep "\n" l).data =
      some (XmlState.content st) := by
  induction l with
  | nil => intro st _; rfl
  | cons x rest ih =>
    intro st h
    cases rest with
    | nil => exact h x (List.mem_singleton.mpr rfl)
    | cons y t =>
      show xmlScan (XmlState.content st) (x ++ "\n" ++ joinSep "\n" (y :: t)).data = _
      simp only [String.data_append]
      refine xmlScan_append_of (XmlState.content st) ?_
        (ih st (fun u hu => h u (List.mem_cons_of_mem x hu)))
      exact xmlScan_append_of (XmlState.content st)
        (h x (List.mem_cons_self x (y :: t))) rfl

theorem joinSep_contains (sep : String) (l : List String) (a : String) (ha : a ∈ l) :
    ∃ u v, joinSep sep l = u ++ a ++ v := by
  induction l with
  | nil => cases ha
  | cons x rest ih =>
    cases rest with
    | nil =>
      rcases List.mem_singleton.mp ha with rfl
      exact ⟨"", "", by simp [joinSep]⟩
    | cons y t =>
      rcases List.mem_cons.mp ha with rfl | hmem
      · refine ⟨"", sep ++ joinSep sep (y :: t), ?_⟩
        simp [joinSep, String.append_assoc]
      · obtain ⟨u, v, huv⟩ := ih hmem
        refine ⟨x ++ sep ++ u, v, ?_⟩
        simp [joinSep, huv, String.append_assoc]

set_option maxRecDepth 100000 in
/-- C9 counterexample: the claim says the output is well-formed XML and
contains exactly one url entry for the home page plus one per completed
episode.  Both conjuncts fail: even with no episodes and no categories the
url list has three entries (home plus the virtual keywords "new" and
"popular"), and a successful generation over a completed episode in the
category "Business & Economy" interpolates the label unescaped, leaving a
bare ampersand that no XML parser accepts. -/
theorem sitemap_not_only_home_and_episodes_counterexample :
    sitemapHandler "GET" [] DbOutcome.ok DbOutcome.ok "2026-01-01T00:00:00.000Z" =
      (200, generateSitemapXML [] [] "2026-01-01T00:00:00.000Z") ∧
    (sitemapUrls [] [] "2026-01-01T00:00:00.000Z").length = 3 ∧
    ¬ ((sitemapUrls [] [] "2026-01-01T00:00:00.000Z").length =
        1 + ([] : List Episode).length) ∧
    sitemapHandler "GET" [rowBiz] DbOutcome.ok DbOutcome.ok "2026-01-01T00:00:00.000Z" =
      (200, generateSitemapXML [mapRow rowBiz] ["Business & Economy"]
        "2026-01-01T00:00:00.000Z") ∧
    xmlWellFormed (generateSitemapXML [mapRow rowBiz] ["Business & Economy"]
      "2026-01-01T00:00:00.000Z").data = false := by
  refine ⟨rfl, by decide, by decide, rfl, by decide⟩

/-- C9 amended: on a successful generation the sitemap url list consists of
exactly one home-page entry, one entry per virtual filter keyword and per
fetched category, and one entry per completed episode, in that order; each
episode entry's location is built from its id and its last-modified value is
the episode's creation date truncated to the calendar day, and each episode
entry occurs inside the generated XML document.  Moreover, whenever the
interpolated data (the current date, the category labels, and each
episode's id and creation date) contains no raw ampersand or left angle
bracket, the generated document is well-formed XML: its tags balance and
every ampersand begins a valid entity reference.  (Unconditional
well-formedness fails, as the counterexample's unescaped ampersand shows.) -/
theorem sitemap_entries_structure (eps : List Episode) (cats : List String) (now : String) :
    sitemapUrls eps cats now =
      homeUrlEntry now ::
        ((SPECIAL_FILTERS ++ cats).map (categoryUrlEntry now) ++ eps.map episodeUrlEntry)
    ∧ (sitemapUrls eps cats now).length = 3 + cats.length + eps.length
    ∧ (∀ ep ∈ eps,
        (∃ u v, episodeUrlEntry ep =
          u ++ ("<loc>" ++ BASE_URL ++ "/episode/" ++ ep.id ++ "</loc>") ++ v)
        ∧ (∃ u v, episodeUrlEntry ep =
          u ++ ("<lastmod>" ++ formatDate ep.createdAt ++ "</lastmod>") ++ v)
        ∧ (∃ u v, generateSitemapXML eps cats now = u ++ episodeUrlEntry ep ++ v))
    ∧ ((∀ c ∈ now.data, xmlBenignChar c = true) →
       (∀ cat ∈ cats, ∀ c ∈ cat.data, xmlBenignChar c = true) →
       (∀ ep ∈ eps, (∀ c ∈ ep.id.data, xmlBenignChar c = true) ∧
         (∀ c ∈ ep.createdAt.data, xmlBenignChar c = true)) →
       xmlWellFormed (generateSitemapXML eps cats now).data = true) := by
  refine ⟨rfl, ?_, ?_, ?_⟩
  · simp [sitemapUrls, SPECIAL_FILTERS]
    omega
  · intro ep hep
    refine ⟨?_, ?_, ?_⟩
    · refine ⟨"  <url>\n    ",
        "\n    <lastmod>" ++ formatDate ep.createdAt ++
          "</lastmod>\n    <changefreq>monthly</changefreq>\n    <priority>0.8</priority>\n  </url>", ?_⟩
      have e1 : ("  <url>\n    <loc>" : String) = "  <url>\n    " ++ "<loc>" := by decide
      have e2 : ("</loc>\n    <lastmod>" : String) = "</loc>" ++ "\n    <lastmod>" := by decide
      simp only [episodeUrlEntry]
      rw [e1, e2]
      simp only [String.append_assoc]
    · refine ⟨"  <url>\n    <loc>" ++ BASE_URL ++ "/episode/" ++ ep.id ++ "</loc>\n    ",
        "\n    <changefreq>monthly</changefreq>\n    <priority>0.8</priority>\n  </url>", ?_⟩
      have e1 : ("</loc>\n    <lastmod>" : String) = "</loc>\n    " ++ "<lastmod>" := by decide
      have e2 : ("</lastmod>\n    <changefreq>monthly</changefreq>\n    <priority>0.8</priority>\n  </url>" : String) =
        "</lastmod>" ++ "\n    <changefreq>monthly</changefreq>\n    <priority>0.8</priority>\n  </url>" := by decide
      simp only [episodeUrlEntry]
      rw [e1, e2]
      simp only [String.append_assoc]
    · have hmem : episodeUrlEntry ep ∈ sitemapUrls eps cats now := by
        simp only [sitemapUrls, List.mem_cons, List.mem_append, List.mem_map]
        exact Or.inr (Or.inr ⟨ep, hep, rfl⟩)
      obtain ⟨u, v, huv⟩ := joinSep_contains "\n" (sitemapUrls eps cats now) _ hmem
      refine ⟨"<?xml version=\"1.0\" encoding=\"UTF-8\"?>\n<urlset xmlns=\"http://www.sitemaps.org/schemas/sitemap/0.9\">\n" ++ u,
        v ++ "\n</urlset>", ?_⟩
      simp only [generateSitemapXML]
      rw [huv]
      simp only [String.append_assoc]
  · intro hnow hcats heps
    have hurls : ∀ u ∈ sitemapUrls eps cats now,
        xmlScan (XmlState.content ["urlset".data]) u.data =
          some (XmlState.content ["urlset".data]) := by
      intro u hu
      simp only [sitemapUrls] at hu
      rcases List.mem_cons.mp hu with rfl | hu1
      · exact xmlScan_homeUrlEntry _ _ hnow
      · rcases List.mem_append.mp hu1 with hc | he
        · obtain ⟨cat, hcatmem, rfl⟩ := List.mem_map.mp hc
          have hbc : ∀ ch ∈ cat.data, xmlBenignChar ch = true := by
            rcases List.mem_append.mp hcatmem with hs | hreal
            · simp only [SPECIAL_FILTERS, List.mem_cons, List.not_mem_nil,
                or_false] at hs
              rcases hs with rfl | rfl
              · decide
              · decide
            · exact hcats cat hreal
          exact xmlScan_categoryUrlEntry _ _ _ hnow hbc
        · obtain ⟨ep, hepmem, rfl⟩ := List.mem_map.mp he
          exact xmlScan_episodeUrlEntry _ _ (heps ep hepmem).1 (heps ep hepmem).2
    simp only [xmlWellFormed, beq_iff_eq, generateSitemapXML, String.data_append]
    refine xmlScan_append_of (XmlState.content ["urlset".data]) ?_ rfl
    exact xmlScan_append_of (XmlState.content ["urlset".data]) rfl
      (xmlScan_joinSep _ _ hurls)

/-- C9 witness: a concrete single-episode, no-category table, including the
well-formedness of its generated document. -/
theorem sitemap_entries_structure_witness :
    (mapRow rowDone ∈ [mapRow rowDone]) ∧
    ((sitemapUrls [mapRow rowDone] [] "2026-01-01T00:00:00.000Z").length = 4) ∧
    (∃ u v, episodeUrlEntry (mapRow rowDone) =
      u ++ ("<loc>" ++ BASE_URL ++ "/episode/" ++ (mapRow rowDone).id ++ "</loc>") ++ v) ∧
    xmlWellFormed (generateSitemapXML [mapRow rowDone] []
      "2026-01-01T00:00:00.000Z").data = true :=
  ⟨List.mem_singleton.mpr rfl,
   (sitemap_entries_structure [mapRow rowDone] [] "2026-01-01T00:00:00.000Z").2.1,
   ((sitemap_entries_structure [mapRow rowDone] [] "2026-01-01T00:00:00.000Z").2.2.1
     (mapRow rowDone) (List.mem_singleton.mpr rfl)).1,
   (sitemap_entries_structure [mapRow rowDone] [] "2026-01-01T00:00:00.000Z").2.2.2
     (by decide) (by decide) (by decide)⟩

/-! ## C5: substitutions only ever rewrite recognized tags -/

theorem stripPre_sound : ∀ pre s r : List Char, stripPre pre s = some r → s = pre ++ r := by
  intro pre
  induction pre with
  | nil =>
    intro s r h
    simp only [stripPre, Option.some.injEq] at h
    rw [h]
    rfl
  | cons a as ih =>
    intro s r h
    cases s with
    | nil => simp [stripPre] at h
    | cons b bs =>
      simp only [stripPre] at h
      by_cases hab : a = b
      · rw [if_pos hab] at h
        rw [List.cons_append, ← ih bs r h, hab]
      · rw [if_neg hab] at h
        cases h

theorem splitAtFirst_sound (c : Char) :
    ∀ s a b : List Char, splitAtFirst c s = some (a, b) → s = a ++ b ∧ c ∉ a := by
  intro s
  induction s with
  | nil => intro a b h; simp [splitAtFirst] at h
  | cons x xs ih =>
    intro a b h
    simp only [splitAtFirst] at h
    by_cases hxc : x = c
    · rw [if_pos hxc] at h
      obtain ⟨rfl, rfl⟩ := Prod.mk.injEq .. ▸ Option.some.injEq .. ▸ h
      exact ⟨rfl, List.not_mem_nil c⟩
    · rw [if_neg hxc] at h
      cases hsp : splitAtFirst c xs with
      | none => rw [hsp] at h; cases h
      | some pr =>
        obtain ⟨a', b'⟩ := pr
        rw [hsp] at h
        simp only [Option.some.injEq, Prod.mk.injEq] at h
        obtain ⟨rfl, rfl⟩ := h
        obtain ⟨hxs, hca⟩ := ih a' b' hsp
        refine ⟨by rw [List.cons_append, ← hxs], ?_⟩
        intro hc
        rcases List.mem_cons.mp hc with rfl | hc
        · exact hxc rfl
        · exact hca hc

theorem matchAt_sound (p : TagPattern) (s mid rest : List Char)
    (h : p.matchAt s = some (mid, rest)) :
    s = p.pre ++ mid ++ p.post ++ rest ∧ p.stop ∉ mid ∧ (p.post = [] → mid = []) := by
  unfold TagPattern.matchAt at h
  cases h1 : stripPre p.pre s with
  | none => rw [h1] at h; cases h
  | some r1 =>
    rw [h1] at h
    dsimp only at h
    have hs1 : s = p.pre ++ r1 := stripPre_sound _ _ _ h1
    by_cases hpost : p.post.isEmpty
    · rw [if_pos hpost] at h
      simp only [Option.some.injEq, Prod.mk.injEq] at h
      obtain ⟨rfl, rfl⟩ := h
      have hpe : p.post = [] := by simpa using hpost
      refine ⟨by simp [hs1, hpe], List.not_mem_nil _, fun _ => rfl⟩
    · rw [if_neg hpost] at h
      cases h2 : splitAtFirst p.stop r1 with
      | none => rw [h2] at h; cases h
      | some pr =>
        obtain ⟨m, r2⟩ := pr
        rw [h2] at h
        dsimp only at h
        obtain ⟨hr1, hcm⟩ := splitAtFirst_sound _ _ _ _ h2
        cases h3 : stripPre p.post r2 with
        | none => rw [h3] at h; cases h
        | some rest' =>
          rw [h3] at h
          simp only [Option.some.injEq, Prod.mk.injEq] at h
          obtain ⟨rfl, rfl⟩ := h
          have hr2 : r2 = p.post ++ rest' := stripPre_sound _ _ _ h3
          refine ⟨?_, hcm, fun hpe => absurd hpe (by simpa using hpost)⟩
          rw [hs1, hr1, hr2]
          simp [List.append_assoc]

theorem replaceFirstGo_frame (p : TagPattern) (repl : List Char) :
    ∀ s bfr : List Char, replaceFirstGo p repl bfr s = s ∨
      ∃ a m b r, s = a ++ m ++ b ∧ IsTagMatch p m ∧
        replaceFirstGo p repl bfr s = a ++ r ++ b := by
  intro s
  induction s with
  | nil => intro bfr; exact Or.inl rfl
  | cons x xs ih =>
    intro bfr
    cases hm : p.matchAt (x :: xs) with
    | some pr =>
      obtain ⟨mid, rest⟩ := pr
      obtain ⟨hs, hstop, hemp⟩ := matchAt_sound p (x :: xs) mid rest hm
      right
      refine ⟨[], p.pre ++ mid ++ p.post, rest,
        substitutionValue (p.pre ++ mid ++ p.post) bfr.reverse rest repl,
        by simpa [List.append_assoc] using hs, ⟨mid, rfl, hstop, hemp⟩, ?_⟩
      simp only [replaceFirstGo, hm, List.nil_append]
    | none =>
      rcases ih (x :: bfr) with heq | ⟨a, m, b, r, hxs, hmatch, hres⟩
      · left
        simp only [replaceFirstGo, hm, heq]
      · right
        refine ⟨x :: a, m, b, r, by simp [hxs], hmatch, ?_⟩
        simp only [replaceFirstGo, hm, hres, List.cons_append]

theorem replaceFirst_frame (p : TagPattern) (repl s : List Char) :
    replaceFirst p repl s = s ∨
      ∃ a m b r, s = a ++ m ++ b ∧ IsTagMatch p m ∧
        replaceFirst p repl s = a ++ r ++ b :=
  replaceFirstGo_frame p repl s []

theorem OnlyTagEdits_replaceFirst {ps : List TagPattern} {p : TagPattern}
    {repl s u : List Char} (hp : p ∈ ps) (h : OnlyTagEdits ps s u) :
    OnlyTagEdits ps s (replaceFirst p repl u) := by
  rcases replaceFirst_frame p repl u with heq | ⟨a, m, b, r, hu, hm, hres⟩
  · rw [heq]; exact h
  · rw [hres]; exact OnlyTagEdits.step a m b r (hu ▸ h) hp hm

/-- C5: for every shell document and all request data, the episode-page and
category-page renderers produce documents reachable from the shell purely by
rewriting substrings that match their recognized og, twitter and title tag
patterns: a tag the renderer does not recognize is never altered, and every
byte outside the rewritten tag spans is identical to the shell. -/
theorem render_edits_confined (shell : List Char) (ep : Episode)
    (eid ehost eproto category : String) (cats : List String)
    (chost cproto : String) :
    OnlyTagEdits episodeRenderPatterns shell (renderEpisodeHtml shell ep eid ehost eproto)
    ∧ OnlyTagEdits categoryRenderPatterns shell
        (renderCategoryHtml shell category cats chost cproto) := by
  constructor
  · simp only [renderEpisodeHtml]
    repeat
      apply OnlyTagEdits_replaceFirst (by simp [episodeRenderPatterns])
    exact OnlyTagEdits.refl shell
  · simp only [renderCategoryHtml]
    repeat
      apply OnlyTagEdits_replaceFirst (by simp [categoryRenderPatterns])
    exact OnlyTagEdits.refl shell
